import Mathlib

/-!
# UmbrellaChain (gymnax bsuite) — verification development

Shallow embedding of `src/gymnax/environments/bsuite/umbrella_chain.py`.

The environment state carries a hidden target bit `need_umbrella`, a carried
bit `has_umbrella`, a cumulative `total_regret`, and a step counter `time`.
JAX int32 fields are modelled as `Int` (no reachable computation here comes
near the int32 range); the step counter, which starts at 0 and only ever
increments, is modelled as `Nat`.  The float32 observation vector is modelled
over `ℚ`.
-/

namespace UmbrellaChain

/-- Modelled from the spec (§4.1 RandomStreamManager): a JAX PRNG key is an
opaque immutable value with a pure deterministic `split`; the concrete hash
lives in the external `jax.random` library, not in this repository.  Any
injective-enough deterministic model suffices: every claim below either holds
for each Bernoulli outcome or is independent of the key. -/
abbrev Key : Type := Nat

/-- Modelled from the spec (§4.1): `split(key, 2)` derives two child keys
deterministically. -/
def splitKey (k : Key) : Key × Key :=
  (2 * (k : Nat) + 1, 2 * (k : Nat) + 2)

/-- Modelled from the spec (§4.1): `split(key, 3)` derives three child keys
deterministically. -/
def splitKey3 (k : Key) : Key × Key × Key :=
  (3 * (k : Nat) + 1, 3 * (k : Nat) + 2, 3 * (k : Nat) + 3)

/-- Modelled from the spec (§4.1): a fair Bernoulli draw from a key —
a pure deterministic function of the key. -/
def bernoulli (k : Key) : Bool :=
  (k : Nat) % 2 == 1

/-- Modelled from the spec (§4.3): `jax.random.bernoulli(key, shape=(n,))` —
a vector of `n` Bernoulli draws, a pure function of the key. -/
def bernoulliVec (k : Key) (n : Nat) : List Bool :=
  (List.range n).map (fun i => bernoulli ((k : Nat) + i))

/-- Booleans coerced into numeric context, as jnp does in arithmetic. -/
def boolToInt (b : Bool) : Int :=
  if b then 1 else 0

/-- `EnvState` from the source: `need_umbrella`, `has_umbrella`,
`total_regret` are jnp.int32 fields (modelled as `Int`); `time` is the step
counter, 0 at reset and incremented by 1 per step (modelled as `Nat`). -/
structure EnvState where
  need_umbrella : Int
  has_umbrella : Int
  total_regret : Int
  time : Nat
deriving DecidableEq, Repr

/-- `EnvParams` from the source: `chain_length` (default 10) and
`max_steps_in_episode` (default 100). -/
structure EnvParams where
  chain_length : Int := 10
  max_steps_in_episode : Int := 100
deriving DecidableEq, Repr

/-- `UmbrellaChain.is_terminal`: done when `time >= max_steps_in_episode`
or `time == chain_length`. -/
def is_terminal (state : EnvState) (params : EnvParams) : Bool :=
  decide ((state.time : Int) ≥ params.max_steps_in_episode)
    || decide ((state.time : Int) = params.chain_length)

/-- Modelled from the spec (§4.2, §4.4): `Environment.discount` lives in the
base class `gymnax/environments/environment.py`, which is not under `src/`;
the spec fixes `info = {discount: terminal ? 0 : 1}`. -/
def discount (state : EnvState) (params : EnvParams) : Int :=
  if is_terminal state params then 0 else 1

/-- `UmbrellaChain.get_obs`: observation of shape `(1, 3 + n_distractor)`
(modelled as the single row, a list of rationals):
entry 0 is `need_umbrella`, entry 1 `has_umbrella`,
entry 2 is `1 - time / chain_length`, entries `3..` are Bernoulli
distractor draws from the supplied key. -/
def get_obs (n_distractor : Nat) (state : EnvState) (key : Key)
    (params : EnvParams) : List ℚ :=
  [(state.need_umbrella : ℚ), (state.has_umbrella : ℚ),
    1 - (state.time : ℚ) / (params.chain_length : ℚ)]
  ++ (bernoulliVec key n_distractor).map (fun b => if b then (1 : ℚ) else 0)

/-- The quintuple returned by `step_env`: observation, next state, reward,
done flag, and the info dict, whose only entry is the discount. -/
structure StepResult where
  obs : List ℚ
  state : EnvState
  reward : Int
  done : Bool
  info_discount : Int
deriving DecidableEq, Repr

/-- `UmbrellaChain.step_env`, line by line from the source:
`has_umbrella = select(time+1 == 1, action, state.has_umbrella)`;
`chain_full = (time+1 == chain_length)`; `has_need = (has_umbrella ==
need_umbrella)`; reward starts at 0, adds `chain_full ∧ has_need`,
subtracts `chain_full ∧ ¬has_need`; regret adds `2 * (chain_full ∧
¬has_need)`; the key is split into a reward key and a distractor key, and
when the chain is not full a Bernoulli draw mapped to `{+1, −1}` is added
to the reward; the new state increments `time`; done and the discount are
evaluated on the new state; the observation encodes the new state with the
distractor key. -/
def step_env (n_distractor : Nat) (key : Key) (state : EnvState)
    (action : Int) (params : EnvParams) : StepResult :=
  let has_umbrella : Int :=
    if state.time + 1 = 1 then action else state.has_umbrella
  let chain_full : Bool := decide ((state.time : Int) + 1 = params.chain_length)
  let has_need : Bool := decide (has_umbrella = state.need_umbrella)
  let reward0 : Int :=
    boolToInt (chain_full && has_need) - boolToInt (chain_full && !has_need)
  let total_regret : Int :=
    state.total_regret + 2 * boolToInt (chain_full && !has_need)
  let key_reward := (splitKey key).1
  let key_distractor := (splitKey key).2
  let random_rew : Int := 2 * boolToInt (bernoulli key_reward) - 1
  let reward : Int := reward0 + (1 - boolToInt chain_full) * random_rew
  let state' : EnvState :=
    ⟨state.need_umbrella, has_umbrella, total_regret, state.time + 1⟩
  { obs := get_obs n_distractor state' key_distractor params
    state := state'
    reward := reward
    done := is_terminal state' params
    info_discount := discount state' params }

/-- `UmbrellaChain.reset_env`: split the key into three children, sample
`need_umbrella` and `has_umbrella` as independent fair Bernoulli draws,
start with `total_regret = 0` and `time = 0`, and return the encoded
observation together with the state. -/
def reset_env (n_distractor : Nat) (key : Key) (params : EnvParams) :
    List ℚ × EnvState :=
  let (key_need, key_has_distractor) :=
    (((splitKey3 key).1 : Key), (splitKey3 key).2)
  let key_has := key_has_distractor.1
  let key_distractor := key_has_distractor.2
  let need_umbrella : Int := boolToInt (bernoulli key_need)
  let has_umbrella : Int := boolToInt (bernoulli key_has)
  let state : EnvState := ⟨need_umbrella, has_umbrella, 0, 0⟩
  (get_obs n_distractor state key_distractor params, state)

/-- `UmbrellaChain.observation_space` is `Box(0, 1, (1, 3+n_distractor))`:
lower bound of every observation entry. -/
def observation_space_low : ℚ := 0

/-- `UmbrellaChain.observation_space` is `Box(0, 1, (1, 3+n_distractor))`:
upper bound of every observation entry. -/
def observation_space_high : ℚ := 1

/-- Thread a state through a sequence of `step_env` calls, one `(key,
action)` pair per step, returning the final state. -/
def runState (n_distractor : Nat) (params : EnvParams) (s : EnvState) :
    List (Key × Int) → EnvState
  | [] => s
  | (k, a) :: rest =>
      runState n_distractor params
        (step_env n_distractor k s a params).state rest

/-- Thread a state through a sequence of `step_env` calls, collecting every
step's full result in order. -/
def runSteps (n_distractor : Nat) (params : EnvParams) (s : EnvState) :
    List (Key × Int) → List StepResult
  | [] => []
  | (k, a) :: rest =>
      step_env n_distractor k s a params ::
        runSteps n_distractor params
          (step_env n_distractor k s a params).state rest

/-- Closed form of the state reached after `k ≥ 1` steps of an episode
that started at a time-0 state `s0` and whose first action was `a0`:
`need_umbrella` is untouched, `has_umbrella` is the first action, `time`
is the number of steps taken, and the regret has grown by 2 exactly when
the chain has already completed with a mismatched carry bit. -/
def stateAfter (s0 : EnvState) (a0 : Int) (p : EnvParams) (k : Nat) :
    EnvState :=
  ⟨s0.need_umbrella, a0,
    s0.total_regret +
      (if 1 ≤ p.chain_length ∧ p.chain_length ≤ (k : Int) ∧
          ¬a0 = s0.need_umbrella then 2 else 0),
    k⟩

/-! ## Helper lemmas about a single step -/

lemma step_state_eq (nd : Nat) (k : Key) (s : EnvState) (a : Int)
    (p : EnvParams) :
    (step_env nd k s a p).state =
      ⟨s.need_umbrella, if s.time + 1 = 1 then a else s.has_umbrella,
        s.total_regret +
          (if ((s.time : Int) + 1 = p.chain_length) ∧
              ¬(if s.time + 1 = 1 then a else s.has_umbrella) =
                s.need_umbrella then 2 else 0),
        s.time + 1⟩ := by
  by_cases hcf : (s.time : Int) + 1 = p.chain_length <;>
    by_cases hn : (if s.time = 0 then a else s.has_umbrella) =
        s.need_umbrella <;>
    simp [step_env, boolToInt, hcf, hn]

lemma step_reward_eq (nd : Nat) (k : Key) (s : EnvState) (a : Int)
    (p : EnvParams) :
    (step_env nd k s a p).reward =
      (if (s.time : Int) + 1 = p.chain_length then
        (if (if s.time + 1 = 1 then a else s.has_umbrella) = s.need_umbrella
          then 1 else -1)
       else 2 * boolToInt (bernoulli (splitKey k).1) - 1) := by
  by_cases hcf : (s.time : Int) + 1 = p.chain_length <;>
    by_cases hn : (if s.time = 0 then a else s.has_umbrella) =
        s.need_umbrella <;>
    simp [step_env, boolToInt, hcf, hn]

lemma step_state_from_zero (nd : Nat) (k : Key) (s : EnvState) (a : Int)
    (p : EnvParams) (h0 : s.time = 0) :
    (step_env nd k s a p).state = stateAfter s a p 1 := by
  rw [step_state_eq]
  simp only [stateAfter, EnvState.mk.injEq, h0]
  refine ⟨trivial, by simp, ?_, trivial⟩
  simp only [if_true]
  split_ifs <;> omega

lemma step_stateAfter (nd : Nat) (key : Key) (s0 : EnvState) (a0 a : Int)
    (p : EnvParams) (k : Nat) (hk : 1 ≤ k) :
    (step_env nd key (stateAfter s0 a0 p k) a p).state =
      stateAfter s0 a0 p (k + 1) := by
  rw [step_state_eq]
  have hk0 : ¬(k + 1 = 1) := by omega
  simp only [stateAfter, EnvState.mk.injEq, hk0, if_false]
  refine ⟨trivial, trivial, ?_, trivial⟩
  push_cast
  split_ifs <;> omega

/-! ## Helper lemmas about step sequences -/

lemma runSteps_length (nd : Nat) (p : EnvParams) :
    ∀ (T : List (Key × Int)) (s : EnvState),
      (runSteps nd p s T).length = T.length := by
  intro T
  induction T with
  | nil => intro s; rfl
  | cons ka T ih =>
    rcases ka with ⟨k, a⟩
    intro s
    simp [runSteps, ih]

lemma runSteps_time_done_elem (nd : Nat) (p : EnvParams) :
    ∀ (T : List (Key × Int)) (s : EnvState) (i : Nat) (r : StepResult),
      (runSteps nd p s T)[i]? = some r →
      r.state.time = s.time + i + 1 ∧ r.done = is_terminal r.state p := by
  intro T
  induction T with
  | nil => intro s i r h; simp [runSteps] at h
  | cons ka T ih =>
    rcases ka with ⟨k, a⟩
    intro s i r h
    cases i with
    | zero =>
      rw [runSteps] at h
      simp only [List.getElem?_cons_zero, Option.some.injEq] at h
      subst h
      exact ⟨rfl, rfl⟩
    | succ i =>
      rw [runSteps] at h
      simp only [List.getElem?_cons_succ] at h
      obtain ⟨ht, hd⟩ := ih (step_env nd k s a p).state i r h
      refine ⟨?_, hd⟩
      rw [ht]
      have : (step_env nd k s a p).state.time = s.time + 1 := rfl
      omega

lemma runSteps_obs_elem (nd : Nat) (p : EnvParams) :
    ∀ (T : List (Key × Int)) (s : EnvState) (i : Nat) (r : StepResult),
      (runSteps nd p s T)[i]? = some r →
      r.obs[1]? = some (r.state.has_umbrella : ℚ) := by
  intro T
  induction T with
  | nil => intro s i r h; simp [runSteps] at h
  | cons ka T ih =>
    rcases ka with ⟨k, a⟩
    intro s i r h
    cases i with
    | zero =>
      rw [runSteps] at h
      simp only [List.getElem?_cons_zero, Option.some.injEq] at h
      subst h
      simp [step_env, get_obs]
    | succ i =>
      rw [runSteps] at h
      simp only [List.getElem?_cons_succ] at h
      exact ih (step_env nd k s a p).state i r h

lemma runSteps_elem_from (nd : Nat) (p : EnvParams) (s0 : EnvState)
    (a0 : Int) :
    ∀ (T : List (Key × Int)) (k i : Nat) (r : StepResult), 1 ≤ k →
      (runSteps nd p (stateAfter s0 a0 p k) T)[i]? = some r →
      r.state = stateAfter s0 a0 p (k + i + 1) ∧
      (((k + i : Nat) : Int) + 1 = p.chain_length →
        r.reward = if a0 = s0.need_umbrella then 1 else -1) := by
  intro T
  induction T with
  | nil => intro k i r hk h; simp [runSteps] at h
  | cons ka T ih =>
    rcases ka with ⟨key, act⟩
    intro k i r hk h
    cases i with
    | zero =>
      rw [runSteps] at h
      simp only [List.getElem?_cons_zero, Option.some.injEq] at h
      subst h
      refine ⟨step_stateAfter nd key s0 a0 act p k hk, fun hcf => ?_⟩
      rw [step_reward_eq]
      have hk0 : ¬((stateAfter s0 a0 p k).time + 1 = 1) := by
        show ¬(k + 1 = 1); omega
      have htime : ((stateAfter s0 a0 p k).time : Int) + 1 = p.chain_length := by
        show ((k : Nat) : Int) + 1 = p.chain_length
        simpa using hcf
      rw [if_pos htime, if_neg hk0]
      rfl
    | succ i =>
      rw [runSteps] at h
      simp only [List.getElem?_cons_succ] at h
      rw [step_stateAfter nd key s0 a0 act p k hk] at h
      obtain ⟨hs, hr⟩ := ih (k + 1) i r (by omega) h
      constructor
      · rw [hs]
        congr 1
        omega
      · intro hcf
        apply hr
        push_cast at hcf ⊢
        omega

lemma runSteps_elem_zero (nd : Nat) (p : EnvParams) (s0 : EnvState)
    (k0 : Key) (a0 : Int) (T : List (Key × Int)) (h0 : s0.time = 0) :
    ∀ (i : Nat) (r : StepResult),
      (runSteps nd p s0 ((k0, a0) :: T))[i]? = some r →
      r.state = stateAfter s0 a0 p (i + 1) ∧
      (((i : Nat) : Int) + 1 = p.chain_length →
        r.reward = if a0 = s0.need_umbrella then 1 else -1) := by
  intro i r h
  rw [runSteps] at h
  cases i with
  | zero =>
    simp only [List.getElem?_cons_zero, Option.some.injEq] at h
    subst h
    refine ⟨step_state_from_zero nd k0 s0 a0 p h0, fun hcf => ?_⟩
    rw [step_reward_eq]
    have h1 : s0.time + 1 = 1 := by omega
    have htime : (s0.time : Int) + 1 = p.chain_length := by
      rw [h0]
      simpa using hcf
    rw [if_pos htime, if_pos h1]
  | succ i =>
    simp only [List.getElem?_cons_succ] at h
    rw [step_state_from_zero nd k0 s0 a0 p h0] at h
    obtain ⟨hs, hr⟩ := runSteps_elem_from nd p s0 a0 T 1 i r (by omega) h
    constructor
    · rw [hs]
      congr 1
      omega
    · intro hcf
      apply hr
      push_cast at hcf ⊢
      omega

/-! ## Basic single-step facts -/

/-- C5: every `step_env` call leaves `need_umbrella` unchanged, sets
`has_umbrella` to the supplied action exactly when `state.time + 1 == 1`
and to `state.has_umbrella` otherwise (the action is ignored after the
first step), and increments `time` by exactly 1, so time never decreases
or skips. -/
theorem C5_step_frame (nd : Nat) (k : Key) (s : EnvState) (a : Int)
    (p : EnvParams) :
    (step_env nd k s a p).state.need_umbrella = s.need_umbrella ∧
    (step_env nd k s a p).state.has_umbrella =
      (if s.time + 1 = 1 then a else s.has_umbrella) ∧
    (step_env nd k s a p).state.time = s.time + 1 :=
  ⟨rfl, rfl, rfl⟩

/-- C1: on a chain-completing step (`state.time + 1 == chain_length`),
if the carried bit after the first-step update equals `need_umbrella`
the reward is exactly `+1` and `total_regret` is unchanged; otherwise the
reward is exactly `−1` and the new `total_regret` is the old one plus 2. -/
theorem C1_chain_full_reward (nd : Nat) (k : Key) (s : EnvState) (a : Int)
    (p : EnvParams) (hcf : (s.time : Int) + 1 = p.chain_length) :
    ((if s.time + 1 = 1 then a else s.has_umbrella) = s.need_umbrella →
       (step_env nd k s a p).reward = 1 ∧
       (step_env nd k s a p).state.total_regret = s.total_regret) ∧
    ((if s.time + 1 = 1 then a else s.has_umbrella) ≠ s.need_umbrella →
       (step_env nd k s a p).reward = -1 ∧
       (step_env nd k s a p).state.total_regret = s.total_regret + 2) := by
  constructor
  · intro h
    have h' : (if s.time = 0 then a else s.has_umbrella) = s.need_umbrella :=
      by simpa using h
    simp [step_env, boolToInt, hcf, h']
  · intro h
    have h' : ¬(if s.time = 0 then a else s.has_umbrella) = s.need_umbrella :=
      by simpa using h
    simp [step_env, boolToInt, hcf, h']

/-- Closed witness for `C1_chain_full_reward` at a concrete input:
`chain_length = 3`, state at `time = 2` carrying the matching bit. -/
theorem C1_chain_full_reward_witness :
    (step_env 0 0 ⟨1, 1, 0, 2⟩ 0 ⟨3, 100⟩).reward = 1 ∧
    (step_env 0 0 ⟨1, 1, 0, 2⟩ 0 ⟨3, 100⟩).state.total_regret = 0 :=
  (C1_chain_full_reward 0 0 ⟨1, 1, 0, 2⟩ 0 ⟨3, 100⟩ (by decide)).1 (by decide)

/-- C6: `reset_env` yields `time = 0` and `total_regret = 0`, and with
positive `chain_length` and `max_steps_in_episode` the reset state is not
terminal. -/
theorem C6_reset (nd : Nat) (k : Key) (p : EnvParams)
    (hcl : 0 < p.chain_length) (hms : 0 < p.max_steps_in_episode) :
    (reset_env nd k p).2.time = 0 ∧
    (reset_env nd k p).2.total_regret = 0 ∧
    is_terminal (reset_env nd k p).2 p = false := by
  refine ⟨rfl, rfl, ?_⟩
  simp only [reset_env, is_terminal, Bool.or_eq_false_iff, decide_eq_false_iff_not]
  omega

/-- Closed witness for `C6_reset` at a concrete input. -/
theorem C6_reset_witness :
    (reset_env 0 5 ⟨10, 100⟩).2.time = 0 ∧
    (reset_env 0 5 ⟨10, 100⟩).2.total_regret = 0 ∧
    is_terminal (reset_env 0 5 ⟨10, 100⟩).2 ⟨10, 100⟩ = false :=
  C6_reset 0 5 ⟨10, 100⟩ (by decide) (by decide)

/-- C8: the reward of every `step_env` call is exactly `+1` or exactly
`−1`; on the chain-completing step it is the deterministic match/mismatch
reward, on every other step it is the Bernoulli noise draw mapped to
`{+1, −1}`. -/
theorem C8_reward_pm_one (nd : Nat) (k : Key) (s : EnvState) (a : Int)
    (p : EnvParams) :
    ((step_env nd k s a p).reward = 1 ∨ (step_env nd k s a p).reward = -1) ∧
    (step_env nd k s a p).reward =
      (if (s.time : Int) + 1 = p.chain_length then
        (if (if s.time + 1 = 1 then a else s.has_umbrella) = s.need_umbrella
          then 1 else -1)
       else 2 * boolToInt (bernoulli (splitKey k).1) - 1) := by
  have hchar : (step_env nd k s a p).reward =
      (if (s.time : Int) + 1 = p.chain_length then
        (if (if s.time + 1 = 1 then a else s.has_umbrella) = s.need_umbrella
          then 1 else -1)
       else 2 * boolToInt (bernoulli (splitKey k).1) - 1) := by
    by_cases hcf : (s.time : Int) + 1 = p.chain_length <;>
      by_cases hn : (if s.time = 0 then a else s.has_umbrella) =
          s.need_umbrella <;>
      simp [step_env, boolToInt, hcf, hn]
  refine ⟨?_, hchar⟩
  rw [hchar]
  by_cases hcf : (s.time : Int) + 1 = p.chain_length <;>
    by_cases hn : (if s.time = 0 then a else s.has_umbrella) =
        s.need_umbrella <;>
    cases hb : bernoulli (splitKey k).1 <;>
    simp [hcf, hn, hb, boolToInt]

/-- C9: the next state, done flag, and info returned by `step_env` never
depend on the key, and on a chain-completing step the reward is also
key-independent. -/
theorem C9_key_independence (nd : Nat) (k1 k2 : Key) (s : EnvState)
    (a : Int) (p : EnvParams) :
    (step_env nd k1 s a p).state = (step_env nd k2 s a p).state ∧
    (step_env nd k1 s a p).done = (step_env nd k2 s a p).done ∧
    (step_env nd k1 s a p).info_discount =
      (step_env nd k2 s a p).info_discount ∧
    ((s.time : Int) + 1 = p.chain_length →
      (step_env nd k1 s a p).reward = (step_env nd k2 s a p).reward) := by
  refine ⟨rfl, rfl, rfl, fun hcf => ?_⟩
  simp [step_env, boolToInt, hcf]

/-- Closed witness for `C9_key_independence` at two distinct concrete
keys on a chain-completing step. -/
theorem C9_key_independence_witness :
    (step_env 0 0 ⟨1, 1, 0, 2⟩ 0 ⟨3, 100⟩).reward =
      (step_env 0 7 ⟨1, 1, 0, 2⟩ 0 ⟨3, 100⟩).reward :=
  (C9_key_independence 0 0 7 ⟨1, 1, 0, 2⟩ 0 ⟨3, 100⟩).2.2.2 (by decide)

/-! ## Whole-episode facts -/

/-- C2: for an episode started from a reset state (`time = 0`,
`total_regret = 0`) with `chain_length ≤ max_steps_in_episode`, whose first
action is `a0` and which runs for `chain_length` steps (and possibly more):
if `a0` equals the episode's `need_umbrella`, the `chain_length`-th step's
reward is `+1` and `total_regret` is 0 at every step; otherwise that
reward is `−1` and `total_regret` is 2 from the `chain_length`-th step on
and 0 before it — it changes at no other step and never changes again. -/
theorem C2_episode (nd : Nat) (p : EnvParams) (s0 : EnvState) (k0 : Key)
    (a0 : Int) (rest ext : List (Key × Int))
    (h0 : s0.time = 0) (hreg : s0.total_regret = 0)
    (hmax : p.chain_length ≤ p.max_steps_in_episode)
    (hlen : (rest.length : Int) + 1 = p.chain_length) :
    (a0 = s0.need_umbrella →
      (∀ (i : Nat) (r : StepResult),
        (runSteps nd p s0 (((k0, a0) :: rest) ++ ext))[i]? = some r →
          r.state.total_regret = 0) ∧
      (runSteps nd p s0 (((k0, a0) :: rest) ++ ext))[rest.length]?.map
        StepResult.reward = some 1) ∧
    (¬a0 = s0.need_umbrella →
      ((runSteps nd p s0 (((k0, a0) :: rest) ++ ext))[rest.length]?.map
        StepResult.reward = some (-1)) ∧
      (∀ (i : Nat) (r : StepResult),
        (runSteps nd p s0 (((k0, a0) :: rest) ++ ext))[i]? = some r →
          r.state.total_regret = if rest.length ≤ i then 2 else 0)) := by
  have helem := runSteps_elem_zero nd p s0 k0 a0 (rest ++ ext) h0
  have hlt : rest.length <
      (runSteps nd p s0 ((k0, a0) :: (rest ++ ext))).length := by
    rw [runSteps_length]
    simp only [List.length_cons, List.length_append]
    omega
  have hget := List.getElem?_eq_getElem hlt
  have hfinal := helem rest.length _ hget
  have hrew := hfinal.2 (by exact_mod_cast hlen)
  constructor
  · intro hm
    constructor
    · intro i r h
      rw [List.cons_append] at h
      obtain ⟨hs, _⟩ := helem i r h
      rw [hs]
      simp [stateAfter, hreg, hm]
    · rw [List.cons_append, hget]
      simp only [Option.map_some']
      rw [hrew]
      simp [hm]
  · intro hm
    constructor
    · rw [List.cons_append, hget]
      simp only [Option.map_some']
      rw [hrew]
      simp [hm]
    · intro i r h
      rw [List.cons_append] at h
      obtain ⟨hs, _⟩ := helem i r h
      rw [hs]
      simp only [stateAfter, hreg, hm, not_false_eq_true, and_true,
        zero_add]
      split_ifs <;> push_cast at * <;> omega

/-- Closed witness for `C2_episode`: `chain_length = 2`, `need_umbrella = 1`,
first action `1` (a match), final-step reward `+1`. -/
theorem C2_episode_witness :
    (runSteps 0 ⟨2, 100⟩ ⟨1, 0, 0, 0⟩ (((0, 1) :: [(1, 0)]) ++ []))[1]?.map
      StepResult.reward = some 1 :=
  ((C2_episode 0 ⟨2, 100⟩ ⟨1, 0, 0, 0⟩ 0 1 [(1, 0)] [] rfl rfl (by decide)
    (by decide)).1 (by decide)).2

/-- C3 counterexample: with `chain_length = 1` and
`max_steps_in_episode = 100`, the first step's done flag is true
(`time = 1 = chain_length`) but the second step's done flag is false
again — done does not remain true at every later state, so `Terminal` is
not absorbing under `step_env`. -/
theorem C3_counterexample :
    ((runSteps 0 ⟨1, 100⟩ ⟨0, 0, 0, 0⟩ [(0, 0), (1, 0)])[0]?.map
        StepResult.done = some true) ∧
    ((runSteps 0 ⟨1, 100⟩ ⟨0, 0, 0, 0⟩ [(0, 0), (1, 0)])[1]?.map
        StepResult.done = some false) := by
  decide

/-- C3 as amended: along every step sequence from a reset state, the done
flag of the `i+1`-st step holds exactly when `i + 1 ≥ max_steps_in_episode`
or `i + 1 = chain_length`; hence it first becomes true when the resulting
time reaches `chain_length` or `max_steps_in_episode`, whichever happens
first, but it is not absorbing: when the episode terminates via
`chain_length < max_steps_in_episode`, continuing to step makes done false
again until time reaches `max_steps_in_episode`. -/
theorem C3_done_characterization (nd : Nat) (p : EnvParams) (s0 : EnvState)
    (L : List (Key × Int)) (h0 : s0.time = 0)
    (hcl : 0 < p.chain_length) (hms : 0 < p.max_steps_in_episode) :
    ∀ (i : Nat) (r : StepResult), (runSteps nd p s0 L)[i]? = some r →
      (r.done = true ↔
        (p.max_steps_in_episode ≤ (i : Int) + 1 ∨
          (i : Int) + 1 = p.chain_length)) := by
  intro i r h
  obtain ⟨ht, hd⟩ := runSteps_time_done_elem nd p L s0 i r h
  rw [hd, is_terminal, ht, h0]
  simp only [Bool.or_eq_true, decide_eq_true_eq, ge_iff_le]
  push_cast
  omega

/-- Closed witness for `C3_done_characterization`: one step with
`chain_length = 1` is terminal. -/
theorem C3_done_characterization_witness :
    (⟨[0, 0, 0], ⟨0, 0, 0, 1⟩, 1, true, 0⟩ : StepResult).done = true ↔
      ((5 : Int) ≤ ((0 : Nat) : Int) + 1 ∨
        ((0 : Nat) : Int) + 1 = (1 : Int)) :=
  C3_done_characterization 0 ⟨1, 5⟩ ⟨0, 0, 0, 0⟩ [(0, 0)] rfl (by decide)
    (by decide) 0 ⟨[0, 0, 0], ⟨0, 0, 0, 1⟩, 1, true, 0⟩ (by
      simp only [runSteps, step_env, get_obs, bernoulliVec, splitKey,
        bernoulli, boolToInt, is_terminal, discount,
        List.getElem?_cons_zero, Option.some.injEq, StepResult.mk.injEq,
        EnvState.mk.injEq]
      norm_num)

/-- C7 counterexample: at the first step with `need_umbrella = 1` and
`chain_length = 1`, the out-of-range action `2` is a nonzero action but
does not behave like action `1`: it yields reward `−1` and regret `+2`
(and stores `2` in `has_umbrella`), while action `1` yields reward `+1`
and no regret — the selection rule compares by exact equality, not
truthiness. -/
theorem C7_counterexample :
    (step_env 0 0 ⟨1, 0, 0, 0⟩ 2 ⟨1, 100⟩).reward = -1 ∧
    (step_env 0 0 ⟨1, 0, 0, 0⟩ 1 ⟨1, 100⟩).reward = 1 ∧
    (step_env 0 0 ⟨1, 0, 0, 0⟩ 2 ⟨1, 100⟩).state.total_regret = 2 ∧
    (step_env 0 0 ⟨1, 0, 0, 0⟩ 1 ⟨1, 100⟩).state.total_regret = 0 ∧
    (step_env 0 0 ⟨1, 0, 0, 0⟩ 2 ⟨1, 100⟩).state.has_umbrella = 2 := by
  decide

/-- C7 as amended: `step_env` accepts every integer action at the first
step without error; the action is stored verbatim in `has_umbrella`, and
the chain-completion outcome is decided by exact equality of the stored
action with `need_umbrella` — reward `+1` with regret unchanged when they
are equal, reward `−1` with regret `+2` otherwise (not by a truthy/falsy
reading of the action). -/
theorem C7_amended_exact_equality (nd : Nat) (k : Key) (s : EnvState)
    (a : Int) (p : EnvParams) (h0 : s.time = 0) :
    (step_env nd k s a p).state.has_umbrella = a ∧
    ((s.time : Int) + 1 = p.chain_length →
      (step_env nd k s a p).reward = (if a = s.need_umbrella then 1 else -1) ∧
      (step_env nd k s a p).state.total_regret =
        s.total_regret + (if a = s.need_umbrella then 0 else 2)) := by
  have h1 : s.time + 1 = 1 := by omega
  constructor
  · rw [step_state_eq]
    simp [h1]
  · intro hcf
    constructor
    · rw [step_reward_eq, if_pos hcf, if_pos h1]
    · rw [step_state_eq]
      by_cases hm : a = s.need_umbrella <;> simp [h1, hm, hcf]

/-- Closed witness for `C7_amended_exact_equality` at the counterexample
input: action `2`, `need_umbrella = 1`, `chain_length = 1`. -/
theorem C7_amended_exact_equality_witness :
    (step_env 0 0 ⟨1, 0, 0, 0⟩ 2 ⟨1, 100⟩).state.has_umbrella = 2 ∧
    (step_env 0 0 ⟨1, 0, 0, 0⟩ 2 ⟨1, 100⟩).reward = -1 ∧
    (step_env 0 0 ⟨1, 0, 0, 0⟩ 2 ⟨1, 100⟩).state.total_regret = 2 := by
  have h := C7_amended_exact_equality 0 0 ⟨1, 0, 0, 0⟩ 2 ⟨1, 100⟩ rfl
  have h2 := h.2 (by decide)
  refine ⟨h.1, ?_, ?_⟩
  · rw [h2.1]; decide
  · rw [h2.2]; decide

/-- C10: an action outside `{0, 1}` supplied at the first step is stored
verbatim in `has_umbrella`; entry 1 of the first step's observation and of
every subsequent step's observation equals that value, which lies outside
the `[0, 1]` bounds declared by `observation_space`. -/
theorem C10_action_stored_verbatim (nd : Nat) (k : Key) (s : EnvState)
    (a : Int) (p : EnvParams) (T : List (Key × Int))
    (h0 : s.time = 0) (ha0 : ¬a = 0) (ha1 : ¬a = 1) :
    (step_env nd k s a p).state.has_umbrella = a ∧
    (step_env nd k s a p).obs[1]? = some (a : ℚ) ∧
    (∀ (i : Nat) (r : StepResult),
      (runSteps nd p (step_env nd k s a p).state T)[i]? = some r →
        r.state.has_umbrella = a ∧ r.obs[1]? = some (a : ℚ)) ∧
    ((a : ℚ) < observation_space_low ∨ observation_space_high < (a : ℚ)) := by
  have h1 : s.time + 1 = 1 := by omega
  have hhas : (step_env nd k s a p).state.has_umbrella = a := by
    rw [step_state_eq]
    simp [h1]
  refine ⟨hhas, ?_, ?_, ?_⟩
  · have hob : (step_env nd k s a p).obs[1]? =
        some ((step_env nd k s a p).state.has_umbrella : ℚ) := by
      simp [step_env, get_obs]
    rw [hob, hhas]
  · intro i r h
    have hobr := runSteps_obs_elem nd p T _ i r h
    rw [step_state_from_zero nd k s a p h0] at h
    obtain ⟨hs, _⟩ := runSteps_elem_from nd p s a T 1 i r (le_refl 1) h
    have hhr : r.state.has_umbrella = a := by rw [hs]; rfl
    exact ⟨hhr, by rw [hobr, hhr]⟩
  · unfold observation_space_low observation_space_high
    have hout : a < 0 ∨ 1 < a := by omega
    rcases hout with h | h
    · left; exact_mod_cast h
    · right; exact_mod_cast h

/-- Closed witness for `C10_action_stored_verbatim` at action `2`. -/
theorem C10_action_stored_verbatim_witness :
    (step_env 0 0 ⟨1, 0, 0, 0⟩ 2 ⟨10, 100⟩).state.has_umbrella = 2 ∧
    (((2 : Int) : ℚ) < observation_space_low ∨
      observation_space_high < ((2 : Int) : ℚ)) := by
  have h := C10_action_stored_verbatim 0 0 ⟨1, 0, 0, 0⟩ 2 ⟨10, 100⟩ [] rfl
    (by decide) (by decide)
  exact ⟨h.1, h.2.2.2⟩

/-! ## Observation encoding -/

/-- C4: the observation has exactly `3 + n_distractor` entries; entry 0 is
`need_umbrella` and entry 1 is `has_umbrella` (each 0 or 1 when the state
field is in `{0,1}`); entry 2 is `1 - time / chain_length`, which, when
`0 < chain_length` and `time ≤ chain_length`, lies in `[0, 1]` and is 0
exactly when `time = chain_length`. -/
theorem C4_observation (nd : Nat) (s : EnvState) (k : Key) (p : EnvParams) :
    (get_obs nd s k p).length = 3 + nd ∧
    (get_obs nd s k p)[0]? = some (s.need_umbrella : ℚ) ∧
    (get_obs nd s k p)[1]? = some (s.has_umbrella : ℚ) ∧
    (get_obs nd s k p)[2]? =
      some (1 - (s.time : ℚ) / (p.chain_length : ℚ)) ∧
    (s.need_umbrella = 0 ∨ s.need_umbrella = 1 →
      (get_obs nd s k p)[0]? = some 0 ∨ (get_obs nd s k p)[0]? = some 1) ∧
    (s.has_umbrella = 0 ∨ s.has_umbrella = 1 →
      (get_obs nd s k p)[1]? = some 0 ∨ (get_obs nd s k p)[1]? = some 1) ∧
    (0 < p.chain_length → (s.time : Int) ≤ p.chain_length →
      (0 ≤ 1 - (s.time : ℚ) / (p.chain_length : ℚ) ∧
        1 - (s.time : ℚ) / (p.chain_length : ℚ) ≤ 1) ∧
      (1 - (s.time : ℚ) / (p.chain_length : ℚ) = 0 ↔
        (s.time : Int) = p.chain_length)) := by
  refine ⟨?_, ?_, ?_, ?_, ?_, ?_, ?_⟩
  · simp only [get_obs, List.length_append, List.length_map,
      bernoulliVec, List.length_range, List.length_cons, List.length_nil]
  · simp [get_obs]
  · simp [get_obs]
  · simp [get_obs]
  · rintro (h | h) <;> simp [get_obs, h]
  · rintro (h | h) <;> simp [get_obs, h]
  · intro hcl ht
    have hclQ : (0 : ℚ) < (p.chain_length : ℚ) := by exact_mod_cast hcl
    have htQ : (s.time : ℚ) ≤ (p.chain_length : ℚ) := by
      have : ((s.time : Int) : ℚ) ≤ ((p.chain_length : Int) : ℚ) := by
        exact_mod_cast ht
      simpa using this
    have ht0 : (0 : ℚ) ≤ (s.time : ℚ) := by positivity
    refine ⟨⟨?_, ?_⟩, ?_⟩
    · have : (s.time : ℚ) / (p.chain_length : ℚ) ≤ 1 :=
        (div_le_one hclQ).mpr htQ
      linarith
    · have : 0 ≤ (s.time : ℚ) / (p.chain_length : ℚ) := by positivity
      linarith
    · constructor
      · intro h
        have hdiv : (s.time : ℚ) / (p.chain_length : ℚ) = 1 := by linarith
        have : (s.time : ℚ) = (p.chain_length : ℚ) := by
          field_simp at hdiv
          exact hdiv
        exact_mod_cast this
      · intro h
        have : (s.time : ℚ) = (p.chain_length : ℚ) := by
          exact_mod_cast h
        rw [this]
        field_simp

/-- Closed witness for `C4_observation` at a concrete input:
`time = 2`, `chain_length = 3`, one distractor. -/
theorem C4_observation_witness :
    (0 ≤ 1 - ((2 : Nat) : ℚ) / ((3 : Int) : ℚ) ∧
      1 - ((2 : Nat) : ℚ) / ((3 : Int) : ℚ) ≤ 1) ∧
    (1 - ((2 : Nat) : ℚ) / ((3 : Int) : ℚ) = 0 ↔
      ((2 : Nat) : Int) = (3 : Int)) :=
  (C4_observation 1 ⟨1, 0, 0, 2⟩ 0 ⟨3, 100⟩).2.2.2.2.2.2 (by decide) (by decide)

end UmbrellaChain
